import Mathlib

/-!
Verification development for the VCP v1.1 Platinum-tier evidence-pack
verifier (`verify.py`).  The verifier's pure functions are shallowly
embedded here over a JSON-like value type:

* `canonicalize`            — `canonicalize` (json.dumps with sort_keys,
                               separators `(",", ":")`, ensure_ascii=False)
* `compute_event_hash`      — `compute_event_hash`
* `compute_merkle_root`     — `compute_merkle_root`
* `verify_hash_chain`       — `verify_hash_chain`
* `verify_signatures`       — `verify_signatures`
* `verify_merkle_tree`      — `verify_merkle_tree`
* `verify_platinum_requirements` — `verify_platinum_requirements`

SHA-256 itself is kept abstract: every definition that hashes takes the
compression function `sha : List Nat → List Nat` (bytes to digest bytes)
as an argument; nothing in the verifier depends on the internals of
SHA-256 beyond it being a function on byte strings with non-empty
output.  Exceptions raised by the Python code (`bytes.fromhex` on
non-hex input, for instance) are modelled with `Option`: `none` is an
uncaught exception.
-/

namespace VCP

/-- JSON-like values as produced by `json.load`: strings, integers,
floats (of which only NaN appears in this development — the claims
single it out), booleans, null, arrays and objects.  Objects are
association lists in insertion order, with unique keys, exactly as
Python `dict`s obtained from JSON parsing. -/
inductive JValue where
  | str (s : String)
  | int (n : Int)
  | nan
  | bool (b : Bool)
  | null
  | arr (elems : List JValue)
  | obj (fields : List (String × JValue))
deriving Repr

/-- An event as loaded from `events.json`: a JSON object (dict). -/
abbrev Event := List (String × JValue)

/-- Python truthiness (`if v:`) for JSON-representable values:
`None`, `0`, `""`, `[]` and `\x7b\x7d` are falsy; NaN is truthy. -/
def pyTruthy : JValue → Bool
  | .str s => !(s == "")
  | .int n => !(n == 0)
  | .nan => true
  | .bool b => b
  | .null => false
  | .arr xs => !xs.isEmpty
  | .obj fs => !fs.isEmpty

/-- Python truthiness of an optional value (`dict.get` may return `None`,
which is falsy). -/
def truthyOpt : Option JValue → Bool
  | none => false
  | some v => pyTruthy v

mutual
/-- Structural size of a JSON value, bounding its nesting depth; it only
feeds the fuel of `pyEq` below. -/
def jSize : JValue → Nat
  | .arr xs => 1 + jSizeList xs
  | .obj fs => 1 + jSizeFields fs
  | _ => 1

/-- Size of an array's elements. -/
def jSizeList : List JValue → Nat
  | [] => 0
  | v :: vs => 1 + jSize v + jSizeList vs

/-- Size of an object's fields. -/
def jSizeFields : List (String × JValue) → Nat
  | [] => 0
  | kv :: rest => 1 + jSize kv.2 + jSizeFields rest
end

/-- Fuelled worker for Python `==` on JSON values.  The fuel only drives
termination; `pyEq` always supplies enough of it.  `bool` and `int`
cross-compare (`True == 1` in Python), `NaN` is equal to nothing
(including itself), arrays compare element-wise, and dicts compare as
mappings: same size and every key of one present in the other with an
equal value (keys are unique in dicts obtained from JSON). -/
def pyEqF : Nat → JValue → JValue → Bool
  | 0, _, _ => false
  | fuel + 1, a, b =>
    match a, b with
    | .str s, .str t => s == t
    | .int m, .int n => m == n
    | .bool x, .bool y => x == y
    | .bool x, .int n => (if x then (1 : Int) else 0) == n
    | .int m, .bool y => m == (if y then (1 : Int) else 0)
    | .null, .null => true
    | .arr xs, .arr ys =>
        xs.length == ys.length &&
        (xs.zip ys).all (fun p => pyEqF fuel p.1 p.2)
    | .obj fs, .obj gs =>
        fs.length == gs.length &&
        fs.all (fun kv =>
          match gs.find? (fun kv2 => kv2.1 == kv.1) with
          | some kv2 => pyEqF fuel kv.2 kv2.2
          | none => false)
    | _, _ => false

/-- Python `==` on JSON values.  `jSize a + jSize b + 1` strictly bounds
the recursion depth, so the fuel never runs out. -/
def pyEq (a b : JValue) : Bool := pyEqF (jSize a + jSize b + 1) a b

/-- Python `==` between an optional value (a `dict.get` result, possibly
`None`) and a value: `None` equals no JSON value. -/
def pyEqOpt (o : Option JValue) (v : JValue) : Bool :=
  match o with
  | some w => pyEq w v
  | none => false

/-- `d.get(k)`: first (unique) binding of `k` in the object. -/
def dictGet (fields : List (String × JValue)) (k : String) : Option JValue :=
  match fields.find? (fun kv => kv.1 == k) with
  | some kv => some kv.2
  | none => none

/-- `d.get(k, default)`. -/
def dictGetD (fields : List (String × JValue)) (k : String) (d : JValue) : JValue :=
  (dictGet fields k).getD d

/-- `event.get("Header", \x7b\x7d)` followed by attribute access on the
result.  Headers of events in an evidence pack are JSON objects; a
non-object `Header` would make the Python code raise `AttributeError`
on the subsequent `.get`, a shape the theorems below exclude by
hypothesis where it matters. -/
def headerFields (event : Event) : List (String × JValue) :=
  match dictGet event "Header" with
  | some (.obj fs) => fs
  | some _ => []
  | none => []

/-- `True` when the event's `Header`, if present, is a JSON object —
the shape on which the Python attribute accesses are defined. -/
def headerShapeOk (event : Event) : Bool :=
  match dictGet event "Header" with
  | some (.obj _) => true
  | some _ => false
  | none => true

/-! ### Byte-level helpers: hex, UTF-8 -/

/-- Lowercase hex digit, as used by `bytes.hex` / `hexdigest`. -/
def hexDigit (n : Nat) : Char :=
  Char.ofNat (if n < 10 then 48 + n else 87 + n)

/-- `bytes.hex()` / `hashlib .hexdigest()`: two lowercase hex digits per
byte (digest bytes are < 256). -/
def toHex (bs : List Nat) : String :=
  String.mk (bs.foldr (fun b acc => hexDigit (b / 16 % 16) :: hexDigit (b % 16) :: acc) [])

/-- Value of one hex digit (both cases), `none` for a non-hex character. -/
def hexVal (c : Char) : Option Nat :=
  let n := c.toNat
  if 48 ≤ n ∧ n ≤ 57 then some (n - 48)
  else if 97 ≤ n ∧ n ≤ 102 then some (n - 87)
  else if 65 ≤ n ∧ n ≤ 70 then some (n - 55)
  else none

/-- Worker for `bytes.fromhex`: pairs of hex digits; an odd tail or a
non-hex character raises `ValueError`, i.e. `none`. -/
def fromHexChars : List Char → Option (List Nat)
  | [] => some []
  | [_] => none
  | c1 :: c2 :: rest =>
    match hexVal c1, hexVal c2, fromHexChars rest with
    | some h, some l, some bs => some ((16 * h + l) :: bs)
    | _, _, _ => none

/-- `bytes.fromhex` on whitespace-free input (the verifier only ever
passes hash strings, never spaced hex). -/
def fromHex (s : String) : Option (List Nat) := fromHexChars s.data

/-- UTF-8 encoding of one scalar value (`str.encode("utf-8")`). -/
def encodeChar (c : Char) : List Nat :=
  let n := c.toNat
  if n < 0x80 then [n]
  else if n < 0x800 then [0xC0 + n / 0x40, 0x80 + n % 0x40]
  else if n < 0x10000 then [0xE0 + n / 0x1000, 0x80 + n / 0x40 % 0x40, 0x80 + n % 0x40]
  else [0xF0 + n / 0x40000, 0x80 + n / 0x1000 % 0x40, 0x80 + n / 0x40 % 0x40, 0x80 + n % 0x40]

/-- `s.encode("utf-8")` as a byte list. -/
def utf8Bytes (s : String) : List Nat :=
  s.data.foldr (fun c acc => encodeChar c ++ acc) []

/-! ### `canonicalize`: `json.dumps(obj, sort_keys=True, separators=(",", ":"), ensure_ascii=False)` -/

/-- CPython `json.encoder.py_encode_basestring` with `ensure_ascii=False`:
escape only backslash, the double quote, and control characters below
0x20 (named escapes for \b \t \n \f \r, `\u00xx` otherwise). -/
def escapeChar (c : Char) : List Char :=
  if c = '\\' then ['\\', '\\']
  else if c = '\"' then ['\\', '\"']
  else if c.toNat < 0x20 then
    if c = '\n' then ['\\', 'n']
    else if c = '\t' then ['\\', 't']
    else if c = '\r' then ['\\', 'r']
    else if c.toNat = 8 then ['\\', 'b']
    else if c.toNat = 12 then ['\\', 'f']
    else ['\\', 'u', '0', '0', hexDigit (c.toNat / 16), hexDigit (c.toNat % 16)]
  else [c]

/-- A JSON string literal: quoted, escaped. -/
def quoteStr (s : String) : String :=
  String.mk ('\"' :: s.data.foldr (fun c acc => escapeChar c ++ acc) [] ++ ['\"'])

/-- `",".join` of already-rendered items (the `item_separator` is `","`). -/
def commaJoin : List String → String
  | [] => ""
  | [s] => s
  | s :: rest => s ++ "," ++ commaJoin rest

/-- Code-point lexicographic order on character lists — how Python
compares `str` values. -/
def charListLt : List Char → List Char → Bool
  | [], [] => false
  | [], _ :: _ => true
  | _ :: _, [] => false
  | a :: as, b :: bs =>
    if a.toNat < b.toNat then true
    else if b.toNat < a.toNat then false
    else charListLt as bs

/-- Python `str` `<`. -/
def strLtB (a b : String) : Bool := charListLt a.data b.data

/-- Stable insertion of a rendered key/value pair by key
(Python `sorted` compares strings by code points). -/
def insertPair (kv : String × String) : List (String × String) → List (String × String)
  | [] => [kv]
  | x :: xs =>
    if strLtB x.1 kv.1 || (x.1 == kv.1) then x :: insertPair kv xs
    else kv :: x :: xs

/-- `sorted(...)` of rendered key/value pairs by key; with unique keys this
is exactly CPython's `sorted(dct.items())` under `sort_keys=True`. -/
def sortPairs : List (String × String) → List (String × String)
  | [] => []
  | kv :: rest => insertPair kv (sortPairs rest)

mutual
/-- `json.dumps(v, sort_keys=True, separators=(",", ":"), ensure_ascii=False)`.
With the default `allow_nan=True`, the float NaN serialises as the bare
literal `NaN` (CPython `floatstr`); `json.dumps` raises only for types
outside this value universe, so the embedding is total. -/
def jsonDumps : JValue → String
  | .str s => quoteStr s
  | .int n => toString n
  | .nan => "NaN"
  | .bool b => if b then "true" else "false"
  | .null => "null"
  | .arr xs => "[" ++ commaJoin (dumpElems xs) ++ "]"
  | .obj fs =>
    "\x7b" ++
      commaJoin ((sortPairs (dumpPairs fs)).map (fun kv => quoteStr kv.1 ++ ":" ++ kv.2)) ++
    "\x7d"

/-- Renders each array element (`json.dumps` recursion). -/
def dumpElems : List JValue → List String
  | [] => []
  | v :: vs => jsonDumps v :: dumpElems vs

/-- Renders each object value, keeping the key (`json.dumps` recursion). -/
def dumpPairs : List (String × JValue) → List (String × String)
  | [] => []
  | kv :: rest => (kv.1, jsonDumps kv.2) :: dumpPairs rest
end

/-- `canonicalize(obj)`: simplified RFC 8785 canonicalisation, i.e.
`json.dumps(obj, sort_keys=True, separators=(",", ":"), ensure_ascii=False)`. -/
def canonicalize (v : JValue) : String := jsonDumps v

/-! ### `compute_event_hash` -/

/-- The redacted copy built by `compute_event_hash`: drop `Hash`, `hash`,
`Signature`, `signature` at top level; inside a dict-valued `Header`
drop `EventHash`. -/
def redactEvent (event : Event) : Event :=
  event.filterMap (fun kv =>
    if kv.1 == "Hash" || kv.1 == "hash" || kv.1 == "Signature" || kv.1 == "signature" then
      none
    else if kv.1 == "Header" then
      match kv.2 with
      | .obj hs => some (kv.1, .obj (hs.filter (fun h => !(h.1 == "EventHash"))))
      | v => some (kv.1, v)
    else some kv)

/-- `compute_event_hash(event)`:
`sha256(canonicalize(event_copy).encode("utf-8")).hexdigest()`. -/
def compute_event_hash (sha : List Nat → List Nat) (event : Event) : String :=
  toHex (sha (utf8Bytes (canonicalize (.obj (redactEvent event)))))

/-! ### `compute_merkle_root`: RFC 6962 tree -/

/-- One pass of the `for i in range(0, len(leaves), 2)` loop: adjacent
pairs combine as `sha256(b"\x01" + left + right)`; an odd last node is
combined with itself. -/
def merklePass (sha : List Nat → List Nat) : List (List Nat) → List (List Nat)
  | [] => []
  | [x] => [sha (1 :: (x ++ x))]
  | x :: y :: rest => sha (1 :: (x ++ y)) :: merklePass sha rest

theorem merklePass_length_le (sha : List Nat → List Nat) :
    ∀ l : List (List Nat), (merklePass sha l).length ≤ l.length := by
  intro l
  induction l using merklePass.induct sha with
  | case1 => simp [merklePass]
  | case2 x => simp [merklePass]
  | case3 x y rest ih =>
    simp only [merklePass, List.length_cons]
    omega

/-- Fuelled worker for the `while len(leaves) > 1` loop.  Each pass
maps `n ≥ 2` nodes to at most `⌈n/2⌉ < n` nodes
(`merklePass_length_le`), so fuel equal to the initial length never
runs out; the fuel-exhausted branch is unreachable. -/
def merkleLevelsF (sha : List Nat → List Nat) : Nat → List (List Nat) → List Nat
  | _, [] => []
  | _, [x] => x
  | 0, x :: _ :: _ => x
  | fuel + 1, x :: y :: rest => merkleLevelsF sha fuel (merklePass sha (x :: y :: rest))

/-- The `while len(leaves) > 1` loop: collapse levels until one node
remains.  (The empty case is unreachable: the loop is entered with at
least one leaf.) -/
def merkleLevels (sha : List Nat → List Nat) (leaves : List (List Nat)) : List Nat :=
  merkleLevelsF sha leaves.length leaves

/-- Leaf construction `sha256(b"\x00" + bytes.fromhex(h))`; the hash
strings come out of JSON, so a non-string (Python `TypeError` in
`bytes.fromhex`) or non-hex string (`ValueError`) raises, i.e. `none`. -/
def merkleLeaf (sha : List Nat → List Nat) (v : JValue) : Option (List Nat) :=
  match v with
  | .str s => (fromHex s).map (fun bs => sha (0 :: bs))
  | _ => none

/-- `compute_merkle_root(hashes)` per RFC 6962: empty input yields
`sha256(b"").hexdigest()`, otherwise leaves are built and levels
collapsed; `none` models the uncaught `bytes.fromhex` exception. -/
def compute_merkle_root (sha : List Nat → List Nat) (hashes : List JValue) : Option String :=
  match hashes with
  | [] => some (toHex (sha []))
  | _ => (hashes.mapM (merkleLeaf sha)).map (fun leaves => toHex (merkleLevels sha leaves))

/-! ### `verify_hash_chain` -/

/-- The error entries `verify_hash_chain` appends, with the data the
f-strings interpolate: the index, the expected/computed and the
stored values. -/
inductive ChainErr where
  | prevHashMismatch (i : Nat) (expected : JValue) (got : Option JValue)
  | eventHashMismatch (i : Nat) (computed : String) (stored : Option JValue)
deriving Repr

/-- Merges two `(passed, failed, errors)` accumulators in order, the way
the Python loop accumulates counts and appends errors. -/
def mergeR {α : Type} (a b : Nat × Nat × List α) : Nat × Nat × List α :=
  (a.1 + b.1, a.2.1 + b.2.1, a.2.2 ++ b.2.2)

/-- `prev_hash = stored_hash if stored_hash else prev_hash`: advance the
expected previous hash only to a truthy stored `EventHash`. -/
def prevUpdate (prev : JValue) (stored : Option JValue) : JValue :=
  match stored with
  | some v => if pyTruthy v then v else prev
  | none => prev

/-- Body of the `for i, event in enumerate(events)` loop of
`verify_hash_chain`, with the genesis-seeded `prev_hash` threaded
through.  Per event: a `PrevHash` comparison against `prev_hash`
(mismatch appends an error and counts a failure), then an `EventHash`
comparison against the recomputed digest (mismatch fails, match
passes), then the advance of `prev_hash` to a truthy stored hash. -/
def chainGo (sha : List Nat → List Nat) (i : Nat) (prev : JValue) :
    List Event → Nat × Nat × List ChainErr
  | [] => (0, 0, [])
  | e :: rest =>
    let header := headerFields e
    let stored_hash := dictGet header "EventHash"
    let stored_prev := dictGet header "PrevHash"
    let prevCheck : Nat × Nat × List ChainErr :=
      if pyEqOpt stored_prev prev then (0, 0, [])
      else (0, 1, [.prevHashMismatch i prev stored_prev])
    let computed := compute_event_hash sha e
    let hashCheck : Nat × Nat × List ChainErr :=
      if pyEqOpt stored_hash (.str computed) then (1, 0, [])
      else (0, 1, [.eventHashMismatch i computed stored_hash])
    mergeR prevCheck (mergeR hashCheck (chainGo sha (i + 1) (prevUpdate prev stored_hash) rest))

/-- The 64-hex-zero genesis value (`"0" * 64`). -/
def genesis : String :=
  "0000000000000000000000000000000000000000000000000000000000000000"

/-- `verify_hash_chain(events)`. -/
def verify_hash_chain (sha : List Nat → List Nat) (events : List Event) :
    Nat × Nat × List ChainErr :=
  chainGo sha 0 (.str genesis) events

/-- The value `prev_hash` holds after the loop has consumed `events`
(the advance rule of `chainGo`, folded). -/
def chainPrevAfter (prev : JValue) : List Event → JValue
  | [] => prev
  | e :: rest => chainPrevAfter (prevUpdate prev (dictGet (headerFields e) "EventHash")) rest

/-- `bytes.fromhex` applied to a JSON value: a non-string raises
`TypeError`, bad hex raises `ValueError`; both are `none` (and are
caught by `verify_signatures`' generic handler). -/
def fromHexJ : JValue → Option (List Nat)
  | .str s => fromHex s
  | _ => none

/-! ### `verify_signatures` -/

/-- Outcome of `verify_key.verify(message, sig_bytes)`: success,
`BadSignatureError`, or any other exception (such as the `ValueError`
PyNaCl raises for a signature of the wrong length). -/
inductive VOutcome where
  | ok
  | badSignature
  | otherError
deriving Repr, DecidableEq

/-- Error entries of `verify_signatures`: the early returns for a
missing PyNaCl or an unloadable key, `Invalid signature` and the
generic `Signature error`. -/
inductive SigErr where
  | naclUnavailable
  | keyError
  | invalidSignature (i : Nat)
  | signatureError (i : Nat)
deriving Repr, DecidableEq

/-- Body of the `for i, event in enumerate(events)` loop of
`verify_signatures`.  `b64` abstracts `base64.b64decode` (`none` is a
raised `binascii.Error`/`TypeError`, caught by the generic handler),
`vrf` abstracts the Ed25519 check.  Note the `continue` on a falsy
`sig_value` and the `continue` inside the `try` on a falsy
`event_hash`. -/
def sigGo (b64 : JValue → Option (List Nat)) (vrf : List Nat → List Nat → VOutcome)
    (i : Nat) : List Event → Nat × Nat × List SigErr
  | [] => (0, 0, [])
  | e :: rest =>
    let signature := dictGetD e "Signature" (.obj [])
    let sig_value : Option JValue :=
      match signature with
      | .obj fs => dictGet fs "Value"
      | v => some v
    let contrib : Nat × Nat × List SigErr :=
      match sig_value with
      | none => (0, 0, [])
      | some sv =>
        if !pyTruthy sv then (0, 0, [])
        else
          match b64 sv with
          | none => (0, 1, [.signatureError i])
          | some sig_bytes =>
            match dictGet (headerFields e) "EventHash" with
            | none => (0, 0, [])
            | some eh =>
              if !pyTruthy eh then (0, 0, [])
              else
                match fromHexJ eh with
                | none => (0, 1, [.signatureError i])
                | some message =>
                  match vrf message sig_bytes with
                  | .ok => (1, 0, [])
                  | .badSignature => (0, 1, [.invalidSignature i])
                  | .otherError => (0, 1, [.signatureError i])
    mergeR contrib (sigGo b64 vrf (i + 1) rest)

/-- `verify_signatures(events, public_key_bytes)`.  `naclAvailable`
models the import guard, `keyOk` whether
`nacl.signing.VerifyKey(public_key_bytes)` succeeded. -/
def verify_signatures (naclAvailable keyOk : Bool)
    (b64 : JValue → Option (List Nat)) (vrf : List Nat → List Nat → VOutcome)
    (events : List Event) : Nat × Nat × List SigErr :=
  if !naclAvailable then (0, 0, [.naclUnavailable])
  else if !keyOk then (0, 0, [.keyError])
  else sigGo b64 vrf 0 events

/-! ### `verify_merkle_tree` -/

/-- Error entries of `verify_merkle_tree`: root mismatch (with the
computed and stored values the f-string interpolates) and the
`EventHashes array mismatch`. -/
inductive MerkleErr where
  | rootMismatch (computed : String) (stored : Option JValue)
  | eventHashesMismatch
deriving Repr

/-- The two comprehensions of `verify_merkle_tree`: each event's
`Header.EventHash`, keeping only truthy values. -/
def storedTruthyHashes (events : List Event) : List JValue :=
  (events.map (fun e => dictGet (headerFields e) "EventHash")).filterMap
    (fun h =>
      match h with
      | some v => if pyTruthy v then some v else none
      | none => none)

/-- `verify_merkle_tree(events, batches)`: recompute the root from the
events' truthy stored hashes and compare with `batches["MerkleRoot"]`,
then compare `batches.get("EventHashes", [])` with that same stored
list; `none` is the uncaught `bytes.fromhex` exception. -/
def verify_merkle_tree (sha : List Nat → List Nat) (events : List Event)
    (batches : List (String × JValue)) : Option (Nat × Nat × List MerkleErr) :=
  let event_hashes := storedTruthyHashes events
  match compute_merkle_root sha event_hashes with
  | none => none
  | some computed_root =>
    let stored_root := dictGet batches "MerkleRoot"
    let rootCheck : Nat × Nat × List MerkleErr :=
      if pyEqOpt stored_root (.str computed_root) then (1, 0, [])
      else (0, 1, [.rootMismatch computed_root stored_root])
    let stored_hashes := dictGetD batches "EventHashes" (.arr [])
    let listCheck : Nat × Nat × List MerkleErr :=
      if pyEq stored_hashes (.arr event_hashes) then (1, 0, [])
      else (0, 1, [.eventHashesMismatch])
    some (mergeR rootCheck listCheck)

/-! ### `verify_platinum_requirements` -/

/-- Error entries of `verify_platinum_requirements`: the hard `No events
found` failure and the two field mismatches (with the value the
f-string interpolates). -/
inductive PlatErr where
  | noEvents
  | clockSync (got : Option JValue)
  | tsPrecision (got : Option JValue)
deriving Repr

/-- `verify_platinum_requirements(events)`: empty input returns
`(0, 1, ["No events found"])`; otherwise the first event's header must
carry `ClockSyncStatus == "PTP_LOCKED"` and
`TimestampPrecision == "NANOSECOND"`. -/
def verify_platinum_requirements (events : List Event) : Nat × Nat × List PlatErr :=
  match events with
  | [] => (0, 1, [.noEvents])
  | e :: _ =>
    let header := headerFields e
    let clock_sync := dictGet header "ClockSyncStatus"
    let clockCheck : Nat × Nat × List PlatErr :=
      if pyEqOpt clock_sync (.str "PTP_LOCKED") then (1, 0, [])
      else (0, 1, [.clockSync clock_sync])
    let ts_precision := dictGet header "TimestampPrecision"
    let tsCheck : Nat × Nat × List PlatErr :=
      if pyEqOpt ts_precision (.str "NANOSECOND") then (1, 0, [])
      else (0, 1, [.tsPrecision ts_precision])
    mergeR clockCheck tsCheck

/-! ### State-passing views of the event-reading code

The Python functions receive events by reference, so mutation of an
argument would be visible to the caller.  The definitions below embed
`compute_event_hash` and `verify_hash_chain` in state-passing style:
each returns, next to its result, the value its event argument(s) hold
after the call.  The source contains no assignment into `event` — the
redacted copy is built in fresh dicts (`event_copy`, `header_copy`) —
so every step threads the argument through unchanged. -/

/-- `compute_event_hash` with the post-call value of its `event`
argument made explicit. -/
def compute_event_hash_st (sha : List Nat → List Nat) (event : Event) :
    String × Event :=
  let event_copy := redactEvent event
  (toHex (sha (utf8Bytes (canonicalize (.obj event_copy)))), event)

/-- The `verify_hash_chain` loop with the post-call value of the events
list made explicit. -/
def chainGo_st (sha : List Nat → List Nat) (i : Nat) (prev : JValue) :
    List Event → (Nat × Nat × List ChainErr) × List Event
  | [] => ((0, 0, []), [])
  | e :: rest =>
    let header := headerFields e
    let stored_hash := dictGet header "EventHash"
    let stored_prev := dictGet header "PrevHash"
    let prevCheck : Nat × Nat × List ChainErr :=
      if pyEqOpt stored_prev prev then (0, 0, [])
      else (0, 1, [.prevHashMismatch i prev stored_prev])
    let computedPair := compute_event_hash_st sha e
    let hashCheck : Nat × Nat × List ChainErr :=
      if pyEqOpt stored_hash (.str computedPair.1) then (1, 0, [])
      else (0, 1, [.eventHashMismatch i computedPair.1 stored_hash])
    let restPair := chainGo_st sha (i + 1) (prevUpdate prev stored_hash) rest
    (mergeR prevCheck (mergeR hashCheck restPair.1), computedPair.2 :: restPair.2)

/-- `verify_hash_chain` with the post-call value of the events list made
explicit. -/
def verify_hash_chain_st (sha : List Nat → List Nat) (events : List Event) :
    (Nat × Nat × List ChainErr) × List Event :=
  chainGo_st sha 0 (.str genesis) events

/-! ### Specification-side definitions

These follow the words of the claims (and, where a claim had to be
amended, of the amended claim); the theorems compare them with the
embedded code above. -/

/-- A correctly built chain starting from expected previous hash `prev`:
each event's `PrevHash` equals the running expectation, its stored
`EventHash` equals the recomputed content digest, and the expectation
advances to that digest (SHA-256 digests are non-empty, hence truthy;
theorems that use this carry the non-emptiness of `sha` as a
hypothesis). -/
def validChainB (sha : List Nat → List Nat) (prev : String) : List Event → Bool
  | [] => true
  | e :: rest =>
    let h := compute_event_hash sha e
    pyEqOpt (dictGet (headerFields e) "PrevHash") (.str prev) &&
    pyEqOpt (dictGet (headerFields e) "EventHash") (.str h) &&
    validChainB sha h rest

/-- The expected previous hash after a correctly built chain: the last
event's content digest, or the seed for an empty chain. -/
def chainEndPrev (sha : List Nat → List Nat) (prev : String) : List Event → String
  | [] => prev
  | e :: rest => chainEndPrev sha (compute_event_hash sha e) rest

/-- One step of claim C10's expectation: keep `p` when the stored
`EventHash` is missing or empty, replace it when present and
non-empty. -/
def lastDeclaredUpdate (p : String) (stored : Option JValue) : String :=
  match stored with
  | some (.str s) => if s == "" then p else s
  | _ => p

/-- The most recent stored `EventHash` that is present and non-empty,
seeded with `p` (the genesis value in the claims); from the words of
claim C10. -/
def lastDeclaredFrom (p : String) : List Event → String
  | [] => p
  | e :: rest =>
    lastDeclaredFrom (lastDeclaredUpdate p (dictGet (headerFields e) "EventHash")) rest

/-- `True` when the event's header shape matches the evidence-pack
schema as far as claim C10 needs it: the `Header`, if present, is an
object, and its `EventHash`, if present, is a string. -/
def eventHashStrOk (e : Event) : Bool :=
  headerShapeOk e &&
  (match dictGet (headerFields e) "EventHash" with
   | some (.str _) => true
   | none => true
   | some _ => false)

/-- Per-event outcome of signature verification as the amended claim C3
words it: an event is *skipped* when no truthy `Signature.Value` is
present, and also when a signature is present but decodes fine and the
stored `Header.EventHash` is missing or empty; it *passes* when the
signature verifies against the hex-decoded stored hash; it *fails* with
`InvalidSignature` when cryptographically invalid, and with the generic
`SignatureError` when the signature bytes do not decode, the stored
hash is not valid hex, or the verifying primitive reports any other
error.  Decoding happens first: undecodable signature bytes fail even
when the hash is also missing. -/
def sigClassify (b64 : JValue → Option (List Nat)) (vrf : List Nat → List Nat → VOutcome)
    (i : Nat) (e : Event) : Nat × Nat × List SigErr :=
  let sig_value : Option JValue :=
    match dictGetD e "Signature" (.obj []) with
    | .obj fs => dictGet fs "Value"
    | v => some v
  match sig_value with
  | none => (0, 0, [])
  | some sv =>
    if !pyTruthy sv then (0, 0, [])
    else
      match b64 sv with
      | none => (0, 1, [.signatureError i])
      | some sig_bytes =>
        match dictGet (headerFields e) "EventHash" with
        | none => (0, 0, [])
        | some eh =>
          if !pyTruthy eh then (0, 0, [])
          else
            match fromHexJ eh with
            | none => (0, 1, [.signatureError i])
            | some message =>
              match vrf message sig_bytes with
              | .ok => (1, 0, [])
              | .badSignature => (0, 1, [.invalidSignature i])
              | .otherError => (0, 1, [.signatureError i])

/-- The sum of the per-event classifications, indexed from `i`. -/
def classifySum (b64 : JValue → Option (List Nat)) (vrf : List Nat → List Nat → VOutcome)
    (i : Nat) : List Event → Nat × Nat × List SigErr
  | [] => (0, 0, [])
  | e :: rest => mergeR (sigClassify b64 vrf i e) (classifySum b64 vrf (i + 1) rest)

/-- Merkle verification as claim C1 states it (before amendment): the
root is recomputed from the *batch's declared* `EventHashes` sequence
and compared with the stored `MerkleRoot`, and the stored `EventHashes`
sequence is separately compared, order-sensitively, with the
*independently recomputed* list of event digests. -/
def verify_merkle_tree_claimC1 (sha : List Nat → List Nat) (events : List Event)
    (batches : List (String × JValue)) : Option (Nat × Nat × List MerkleErr) :=
  let declared : List JValue :=
    match dictGet batches "EventHashes" with
    | some (.arr l) => l
    | _ => []
  match compute_merkle_root sha declared with
  | none => none
  | some computed_root =>
    let stored_root := dictGet batches "MerkleRoot"
    let rootCheck : Nat × Nat × List MerkleErr :=
      if pyEqOpt stored_root (.str computed_root) then (1, 0, [])
      else (0, 1, [.rootMismatch computed_root stored_root])
    let digests : List JValue := events.map (fun e => .str (compute_event_hash sha e))
    let listCheck : Nat × Nat × List MerkleErr :=
      if pyEq (dictGetD batches "EventHashes" (.arr [])) (.arr digests) then (1, 0, [])
      else (0, 1, [.eventHashesMismatch])
    some (mergeR rootCheck listCheck)

/-! ### Basic lemmas -/

theorem pyEq_str (a b : String) : pyEq (.str a) (.str b) = (a == b) := by
  simp [pyEq, pyEqF, jSize]

theorem pyEqOpt_str_iff (o : Option JValue) (a : String) :
    pyEqOpt o (.str a) = true ↔ o = some (.str a) := by
  cases o with
  | none => simp [pyEqOpt]
  | some v => cases v <;> simp [pyEqOpt, pyEq, pyEqF, jSize]

theorem toHex_ne_empty (bs : List Nat) (h : bs ≠ []) : toHex bs ≠ "" := by
  cases bs with
  | nil => exact absurd rfl h
  | cons b rest =>
    simp only [toHex, List.foldr_cons]
    intro hc
    have := congrArg String.data hc
    simp at this

theorem compute_event_hash_ne_empty (sha : List Nat → List Nat)
    (hsha : ∀ l, sha l ≠ []) (e : Event) : compute_event_hash sha e ≠ "" :=
  toHex_ne_empty _ (hsha _)

theorem mergeR_nil_left {α : Type} (b : Nat × Nat × List α) : mergeR (0, 0, []) b = b := by
  simp [mergeR]

theorem mergeR_assoc {α : Type} (a b c : Nat × Nat × List α) :
    mergeR (mergeR a b) c = mergeR a (mergeR b c) := by
  simp [mergeR, Nat.add_assoc, List.append_assoc]

/-! ### Chain lemmas -/

/-- The loop of `verify_hash_chain` splits over list append: the second
part starts at the shifted index with the threaded `prev_hash`. -/
theorem chainGo_append (sha : List Nat → List Nat) (xs ys : List Event) :
    ∀ (i : Nat) (prev : JValue),
      chainGo sha i prev (xs ++ ys) =
        mergeR (chainGo sha i prev xs)
          (chainGo sha (i + xs.length) (chainPrevAfter prev xs) ys) := by
  induction xs with
  | nil => intro i prev; simp [chainGo, chainPrevAfter, mergeR_nil_left]
  | cons x xs ih =>
    intro i prev
    simp only [List.cons_append, chainGo, chainPrevAfter, List.length_cons, List.append_eq]
    rw [ih]
    rw [mergeR_assoc, mergeR_assoc]
    have : i + (xs.length + 1) = i + 1 + xs.length := by omega
    rw [this]

/-- Running the loop over a correctly built chain: every event passes,
no errors, and `prev_hash` ends at the last digest. -/
theorem chainGo_valid (sha : List Nat → List Nat) (hsha : ∀ l, sha l ≠ [])
    (es : List Event) :
    ∀ (prev : String) (i : Nat), validChainB sha prev es = true →
      chainGo sha i (.str prev) es = (es.length, 0, []) ∧
      chainPrevAfter (.str prev) es = .str (chainEndPrev sha prev es) := by
  induction es with
  | nil => intro prev i _; simp [chainGo, chainPrevAfter, chainEndPrev]
  | cons e rest ih =>
    intro prev i hv
    simp only [validChainB, Bool.and_eq_true] at hv
    obtain ⟨⟨hprev, hhash⟩, hrest⟩ := hv
    rw [pyEqOpt_str_iff] at hprev hhash
    have hne : compute_event_hash sha e ≠ "" := compute_event_hash_ne_empty sha hsha e
    have hupd : prevUpdate (.str prev) (some (.str (compute_event_hash sha e))) =
        .str (compute_event_hash sha e) := by
      simp [prevUpdate, pyTruthy, hne]
    obtain ⟨ih1, ih2⟩ := ih (compute_event_hash sha e) (i + 1) hrest
    constructor
    · simp only [chainGo, hprev, hhash, hupd]
      rw [ih1]
      simp [pyEqOpt, pyEq_str, mergeR]
      omega
    · simp only [chainPrevAfter, hhash, hupd, chainEndPrev]
      exact ih2

/-- C5: for a synthetically constructed chain where the first event's
`PrevHash` is the 64-zero genesis value, every later `PrevHash` equals
the predecessor's declared `EventHash`, and every `EventHash` equals
the correct content digest (which, being a SHA-256 hex digest, is
non-empty — hypothesis `hsha`), `verify_hash_chain` reports
`passed == N`, `failed == 0` and no errors. -/
theorem hash_chain_valid_all_pass (sha : List Nat → List Nat)
    (hsha : ∀ l, sha l ≠ []) (events : List Event)
    (hv : validChainB sha genesis events = true) :
    verify_hash_chain sha events = (events.length, 0, []) :=
  (chainGo_valid sha hsha events genesis 0 hv).1

/-- C4: corrupting the payload of a single mid-chain event — its stored
`EventHash` `w` stays what was declared while its recomputed digest now
differs — yields exactly one `EventHash` mismatch error, at that event,
and no `PrevHash` mismatch anywhere, because the expectation advances
to the stored hash `w` and the suffix is linked against `w`. -/
theorem hash_chain_corruption_localized (sha : List Nat → List Nat)
    (hsha : ∀ l, sha l ≠ []) (pre post : List Event) (ej : Event) (w : String)
    (hpre : validChainB sha genesis pre = true)
    (hlink : dictGet (headerFields ej) "PrevHash" =
      some (.str (chainEndPrev sha genesis pre)))
    (hstored : dictGet (headerFields ej) "EventHash" = some (.str w))
    (hw : w ≠ "")
    (hcorrupt : w ≠ compute_event_hash sha ej)
    (hpost : validChainB sha w post = true) :
    verify_hash_chain sha (pre ++ ej :: post) =
      (pre.length + post.length, 1,
        [.eventHashMismatch pre.length (compute_event_hash sha ej) (some (.str w))]) := by
  obtain ⟨h1, h2⟩ := chainGo_valid sha hsha pre genesis 0 hpre
  unfold verify_hash_chain
  rw [chainGo_append, h1, h2, Nat.zero_add]
  have hupd : prevUpdate (.str (chainEndPrev sha genesis pre)) (some (.str w)) = .str w := by
    simp [prevUpdate, pyTruthy, hw]
  have hpassGo := (chainGo_valid sha hsha post w (pre.length + 1) hpost).1
  simp only [chainGo, hlink, hstored, hupd, hpassGo]
  have hne : ¬ (w == compute_event_hash sha ej) = true := by
    simpa using hcorrupt
  simp [pyEqOpt, pyEq_str, hne, mergeR]

/-! ### Concrete instances for the witnesses

An explicit stand-in for SHA-256 (the development is parametric in the
hash function; any function on byte lists with non-empty output
instantiates it), and small concrete evidence-pack fragments. -/

/-- Concrete hash-function instance: one byte summarising the input. -/
def shaSum : List Nat → List Nat := fun l => [(l.foldl (fun a b => a + b) 7) % 256]

/-- First chain event, before its digest is declared. -/
def wEv0core : Event := [("Header", .obj [("PrevHash", .str genesis)])]

/-- The digest the first chain event declares. -/
def wH0 : String := compute_event_hash shaSum wEv0core

/-- First chain event: `PrevHash` is genesis, `EventHash` is its own
content digest (the digest redacts `EventHash`, so adding the field
does not change it). -/
def wEv0 : Event := [("Header", .obj [("PrevHash", .str genesis), ("EventHash", .str wH0)])]

/-- Second chain event, before its digest is declared. -/
def wEv1core : Event :=
  [("Header", .obj [("PrevHash", .str wH0)]), ("Governance", .obj [("Symbol", .str "AAPL")])]

/-- The digest the second chain event declares. -/
def wH1 : String := compute_event_hash shaSum wEv1core

/-- Second chain event: linked to the first by its declared hash. -/
def wEv1 : Event :=
  [("Header", .obj [("PrevHash", .str wH0), ("EventHash", .str wH1)]),
   ("Governance", .obj [("Symbol", .str "AAPL")])]

/-- A corrupted mid-chain event: correctly linked to `wEv0`, but its
declared `EventHash` is `beef`, which is not its content digest. -/
def wEvBad : Event :=
  [("Header", .obj [("PrevHash", .str wH0), ("EventHash", .str "beef")])]

/-- Successor of the corrupted event, before its digest is declared:
linked against the *stored* hash `beef`. -/
def wEv2core : Event := [("Header", .obj [("PrevHash", .str "beef")])]

/-- The digest the successor declares. -/
def wH2 : String := compute_event_hash shaSum wEv2core

/-- Successor of the corrupted event, correctly built on top of the
stored hash `beef`. -/
def wEv2 : Event := [("Header", .obj [("PrevHash", .str "beef"), ("EventHash", .str wH2)])]

theorem shaSum_ne_nil : ∀ l, shaSum l ≠ [] := by
  intro l
  simp [shaSum]

/-- Witness for C5: a concrete two-event chain, all checks pass. -/
theorem hash_chain_valid_all_pass_witness :
    verify_hash_chain shaSum [wEv0, wEv1] = (2, 0, []) :=
  hash_chain_valid_all_pass shaSum shaSum_ne_nil [wEv0, wEv1] (by decide)

/-- Witness for C4: corrupting the middle event of a concrete
three-event chain yields exactly one `EventHash` mismatch at index 1
and no `PrevHash` mismatches. -/
theorem hash_chain_corruption_localized_witness :
    verify_hash_chain shaSum [wEv0, wEvBad, wEv2] =
      (2, 1, [.eventHashMismatch 1 (compute_event_hash shaSum wEvBad) (some (.str "beef"))]) :=
  hash_chain_corruption_localized shaSum shaSum_ne_nil [wEv0] [wEv2] wEvBad "beef"
    (by decide) rfl rfl (by decide) (by decide) (by decide)

/-! ### C10: missing or empty stored hashes do not advance the expectation -/

theorem chainPrevAfter_lastDeclared (es : List Event) :
    ∀ p : String, es.all eventHashStrOk = true →
      chainPrevAfter (.str p) es = .str (lastDeclaredFrom p es) := by
  induction es with
  | nil => intro p _; simp [chainPrevAfter, lastDeclaredFrom]
  | cons e rest ih =>
    intro p hOk
    simp only [List.all_cons, Bool.and_eq_true] at hOk
    obtain ⟨hOke, hOkrest⟩ := hOk
    simp only [eventHashStrOk, Bool.and_eq_true] at hOke
    simp only [chainPrevAfter, lastDeclaredFrom]
    cases hget : dictGet (headerFields e) "EventHash" with
    | none => exact ih p hOkrest
    | some v =>
      rw [hget] at hOke
      cases v with
      | str s =>
        by_cases hs : s = ""
        · subst hs; exact ih p hOkrest
        · have hb : (s == "") = false := by simpa using hs
          simp only [prevUpdate, pyTruthy, lastDeclaredUpdate, hb]
          simpa using ih s hOkrest
      | int n => simp at hOke
      | nan => simp at hOke
      | bool b => simp at hOke
      | null => simp at hOke
      | arr xs => simp at hOke
      | obj fs => simp at hOke

theorem lastDeclaredFrom_ne (es : List Event) :
    ∀ p : String, p ≠ "" → lastDeclaredFrom p es ≠ "" := by
  induction es with
  | nil => intro p hp; simpa [lastDeclaredFrom] using hp
  | cons e rest ih =>
    intro p hp
    simp only [lastDeclaredFrom]
    cases hget : dictGet (headerFields e) "EventHash" with
    | none => exact ih p hp
    | some v =>
      cases v with
      | str s =>
        by_cases hs : s = ""
        · subst hs; exact ih p hp
        · have hb : (s == "") = false := by simpa using hs
          simp only [lastDeclaredUpdate, hb]
          exact ih s hs
      | int n => exact ih p hp
      | nan => exact ih p hp
      | bool b => exact ih p hp
      | null => exact ih p hp
      | arr xs => exact ih p hp
      | obj fs => exact ih p hp

/-- C10: when every stored `Header.EventHash` is a string or missing
(the evidence-pack shape), the expectation the continuation of the
chain is checked against is the most recent present-and-non-empty
stored `EventHash` (the genesis value if none); it is a string and
never the empty string — missing or empty stored hashes do not advance
it. -/
theorem chain_expectation_skips_missing_or_empty (sha : List Nat → List Nat)
    (events rest : List Event) (hOk : events.all eventHashStrOk = true) :
    verify_hash_chain sha (events ++ rest) =
      mergeR (verify_hash_chain sha events)
        (chainGo sha events.length (.str (lastDeclaredFrom genesis events)) rest) ∧
    lastDeclaredFrom genesis events ≠ "" := by
  constructor
  · unfold verify_hash_chain
    rw [chainGo_append, chainPrevAfter_lastDeclared events genesis hOk, Nat.zero_add]
  · exact lastDeclaredFrom_ne events genesis (by decide)

/-- An event whose header lacks `EventHash` entirely. -/
def wEvNoHash : Event := [("Header", .obj [("PrevHash", .str "xx")])]

/-- An event whose header carries an *empty* `EventHash`. -/
def wEvEmptyHash : Event := [("Header", .obj [("PrevHash", .str "yy"), ("EventHash", .str "")])]

/-- Witness for C10: after a prefix ending in events with a missing and
an empty stored hash, the continuation is still checked against the
hash declared by the first event. -/
theorem chain_expectation_skips_missing_or_empty_witness :
    verify_hash_chain shaSum ([wEv0, wEvNoHash, wEvEmptyHash] ++ [wEv1]) =
      mergeR (verify_hash_chain shaSum [wEv0, wEvNoHash, wEvEmptyHash])
        (chainGo shaSum 3 (.str (lastDeclaredFrom genesis [wEv0, wEvNoHash, wEvEmptyHash])) [wEv1]) ∧
    lastDeclaredFrom genesis [wEv0, wEvNoHash, wEvEmptyHash] ≠ "" :=
  chain_expectation_skips_missing_or_empty shaSum [wEv0, wEvNoHash, wEvEmptyHash] [wEv1]
    (by decide)

/-! ### C9: the verifier never mutates the events -/

theorem chainGo_st_spec (sha : List Nat → List Nat) (es : List Event) :
    ∀ (i : Nat) (prev : JValue),
      (chainGo_st sha i prev es).2 = es ∧
      (chainGo_st sha i prev es).1 = chainGo sha i prev es := by
  induction es with
  | nil => intro i prev; simp [chainGo_st, chainGo]
  | cons e rest ih =>
    intro i prev
    obtain ⟨ih1, ih2⟩ := ih (i + 1) (prevUpdate prev (dictGet (headerFields e) "EventHash"))
    constructor
    · simp only [chainGo_st, compute_event_hash_st, ih1]
    · simp only [chainGo_st, chainGo, compute_event_hash_st, ih2]
      rfl

/-- C9: the verifier never mutates an event.  In the state-passing
embedding — where each function returns, next to its result, the value
its event argument(s) hold after the call — `compute_event_hash`
returns its event unchanged (the redacted view is built in a fresh
copy) and computes the same digest as the pure embedding, and
`verify_hash_chain` returns its whole event list unchanged. -/
theorem events_never_mutated (sha : List Nat → List Nat) (e : Event) (events : List Event) :
    (compute_event_hash_st sha e).2 = e ∧
    (compute_event_hash_st sha e).1 = compute_event_hash sha e ∧
    (verify_hash_chain_st sha events).2 = events ∧
    (verify_hash_chain_st sha events).1 = verify_hash_chain sha events :=
  ⟨rfl, rfl, (chainGo_st_spec sha events 0 (.str genesis)).1,
    (chainGo_st_spec sha events 0 (.str genesis)).2⟩

/-! ### C6, C7: Merkle tree construction -/

/-- C6: `compute_merkle_root` turns each leaf digest `h` into
`sha256(0x00 ++ h)`, combines internal nodes as
`sha256(0x01 ++ left ++ right)` and combines an odd last node with
itself; on a three-leaf list the root is therefore
`sha256(0x01 ++ sha256(0x01 ++ L0 ++ L1) ++ sha256(0x01 ++ L2 ++ L2))`
with `Li = sha256(0x00 ++ hi)`. -/
theorem merkle_three_leaf_construction (sha : List Nat → List Nat)
    (h0 h1 h2 : String) (b0 b1 b2 : List Nat)
    (e0 : fromHex h0 = some b0) (e1 : fromHex h1 = some b1) (e2 : fromHex h2 = some b2) :
    compute_merkle_root sha [.str h0, .str h1, .str h2] =
      some (toHex (sha (1 :: (sha (1 :: (sha (0 :: b0) ++ sha (0 :: b1))) ++
        sha (1 :: (sha (0 :: b2) ++ sha (0 :: b2))))))) := by
  simp [compute_merkle_root, List.mapM, List.mapM.loop, merkleLeaf, e0, e1, e2,
    merkleLevels, merkleLevelsF, merklePass]

/-- Witness for C6: the three-leaf shape at a concrete hash function
and concrete hex digests. -/
theorem merkle_three_leaf_construction_witness :
    compute_merkle_root shaSum [.str "aa", .str "bb", .str "cc"] =
      some (toHex (shaSum (1 :: (shaSum (1 :: (shaSum (0 :: [0xaa]) ++ shaSum (0 :: [0xbb]))) ++
        shaSum (1 :: (shaSum (0 :: [0xcc]) ++ shaSum (0 :: [0xcc]))))))) :=
  merkle_three_leaf_construction shaSum "aa" "bb" "cc" [0xaa] [0xbb] [0xcc] rfl rfl rfl

/-- C7: `compute_merkle_root` maps the empty list to the digest of the
empty byte string (no error), and a single-leaf list to the single
transformed leaf node `sha256(0x00 ++ h)` with no combination step. -/
theorem merkle_empty_and_single_leaf (sha : List Nat → List Nat)
    (h : String) (bs : List Nat) (e : fromHex h = some bs) :
    compute_merkle_root sha [] = some (toHex (sha [])) ∧
    compute_merkle_root sha [.str h] = some (toHex (sha (0 :: bs))) := by
  refine ⟨rfl, ?_⟩
  simp [compute_merkle_root, List.mapM, List.mapM.loop, merkleLeaf, e,
    merkleLevels, merkleLevelsF]

/-- Witness for C7 at a concrete hash function and a concrete digest. -/
theorem merkle_empty_and_single_leaf_witness :
    compute_merkle_root shaSum [] = some (toHex (shaSum [])) ∧
    compute_merkle_root shaSum [.str "ab"] = some (toHex (shaSum (0 :: [0xab]))) :=
  merkle_empty_and_single_leaf shaSum "ab" [0xab] rfl

/-! ### C8: empty input is a hard `NoEvents` failure -/

/-- C8: `verify_platinum_requirements` on an empty event list returns
`passed == 0`, `failed == 1` with the `No events found` error — and
that error class never occurs for a non-empty list, where only the
field-mismatch errors can appear. -/
theorem platinum_empty_hard_failure :
    verify_platinum_requirements [] = (0, 1, [.noEvents]) ∧
    ∀ (e : Event) (es : List Event),
      PlatErr.noEvents ∉ (verify_platinum_requirements (e :: es)).2.2 := by
  refine ⟨rfl, ?_⟩
  intro e es
  simp only [verify_platinum_requirements]
  by_cases c1 : pyEqOpt (dictGet (headerFields e) "ClockSyncStatus") (.str "PTP_LOCKED") = true <;>
  by_cases c2 : pyEqOpt (dictGet (headerFields e) "TimestampPrecision") (.str "NANOSECOND") = true <;>
  simp [c1, c2, mergeR]

/-! ### C2: NaN does not make `canonicalize` fail -/

/-- Counterexample to C2: a dict containing the float NaN does not make
`canonicalize` fail — `json.dumps` keeps its default `allow_nan=True`
and returns the (non-JSON) serialisation with the bare literal `NaN`;
the code defines no `CanonicalizationError` at all. -/
theorem canonicalize_nan_no_failure :
    canonicalize (.obj [("a", .nan)]) = "\x7b\"a\":NaN\x7d" := rfl

/-- C2 as amended: for a value containing NaN, `canonicalize` produces
output rather than failing: the NaN member is rendered as the bare
literal `NaN` (here next to an ordinary member, with keys sorted). -/
theorem canonicalize_nan_renders_literal :
    canonicalize (.obj [("x", .nan), ("a", .int 1)]) = "\x7b\"a\":1,\"x\":NaN\x7d" := rfl

/-! ### C3: signature outcome classification -/

theorem sigGo_eq_classifySum (b64 : JValue → Option (List Nat))
    (vrf : List Nat → List Nat → VOutcome) (es : List Event) :
    ∀ i : Nat, sigGo b64 vrf i es = classifySum b64 vrf i es := by
  induction es with
  | nil => intro i; rfl
  | cons e rest ih =>
    intro i
    simp only [sigGo, classifySum, ih]
    rfl

/-- C3 as amended: `verify_signatures` (with the primitive available and
a valid key) classifies each event into exactly one of four outcomes —
skipped (no truthy `Signature.Value`, *or* a decodable signature whose
stored `Header.EventHash` is missing or empty: neither counts), passed,
failed with `InvalidSignature`, or failed with `SignatureError`
(undecodable signature bytes, non-hex stored hash, or other error) —
and the result is the indexed sum of the per-event outcomes. -/
theorem signature_outcomes_classified (b64 : JValue → Option (List Nat))
    (vrf : List Nat → List Nat → VOutcome) (events : List Event) :
    verify_signatures true true b64 vrf events = classifySum b64 vrf 0 events ∧
    ∀ (i : Nat) (e : Event),
      sigClassify b64 vrf i e = (0, 0, []) ∨
      sigClassify b64 vrf i e = (1, 0, []) ∨
      sigClassify b64 vrf i e = (0, 1, [.invalidSignature i]) ∨
      sigClassify b64 vrf i e = (0, 1, [.signatureError i]) := by
  constructor
  · exact sigGo_eq_classifySum b64 vrf events 0
  · intro i e
    unfold sigClassify
    cases hsv : (match dictGetD e "Signature" (JValue.obj []) with
        | JValue.obj fs => dictGet fs "Value"
        | v => some v) with
    | none => simp [*]
    | some sv =>
      cases ht : pyTruthy sv with
      | false => simp [*]
      | true =>
        cases hb : b64 sv with
        | none => simp [*]
        | some sb =>
          cases he : dictGet (headerFields e) "EventHash" with
          | none => simp [*]
          | some eh =>
            cases hte : pyTruthy eh with
            | false => simp [*]
            | true =>
              cases hx : fromHexJ eh with
              | none => simp [*]
              | some msg =>
                cases hv : vrf msg sb <;> simp [*]

/-- A concrete event carrying a decodable signature but *no*
`Header.EventHash`. -/
def wSigEvent : Event :=
  [("Signature", .obj [("Value", .str "QUFB")]), ("Header", .obj [])]

/-- A concrete stand-in for `base64.b64decode`: succeeds on strings. -/
def wB64 : JValue → Option (List Nat) :=
  fun v =>
    match v with
    | .str s => some (s.data.map Char.toNat)
    | _ => none

/-- A concrete stand-in for the Ed25519 primitive. -/
def wVrf : List Nat → List Nat → VOutcome := fun _ _ => .otherError

/-- Counterexample to C3 as stated: an event with a present, decodable
signature but a missing stored `Header.EventHash` is *skipped*
(`continue` inside the `try`) — it contributes to neither count —
whereas the claim files it as a `SignatureError` failure. -/
theorem signature_missing_hash_skipped :
    verify_signatures true true wB64 wVrf [wSigEvent] = (0, 0, []) ∧
    ((0, 0, ([] : List SigErr)) : Nat × Nat × List SigErr) ≠ (0, 1, [.signatureError 0]) := by
  exact ⟨rfl, by decide⟩

/-! ### C1: the two Merkle checks -/

/-- C1 as amended: `verify_merkle_tree` recomputes the root from the
events' truthy stored `Header.EventHash` values and compares it with
the stored `MerkleRoot`; separately it compares the batch's stored
`EventHashes` sequence, order-sensitively, with that same stored-hash
list.  The two failures are distinct error classes, each reported
independently of the other, and the two checks always contribute
`passed + failed = 2`. -/
theorem merkle_two_independent_checks (sha : List Nat → List Nat)
    (events : List Event) (batches : List (String × JValue)) (cr : String)
    (r : Nat × Nat × List MerkleErr)
    (h : compute_merkle_root sha (storedTruthyHashes events) = some cr)
    (hr : verify_merkle_tree sha events batches = some r) :
    (MerkleErr.rootMismatch cr (dictGet batches "MerkleRoot") ∈ r.2.2 ↔
      ¬ pyEqOpt (dictGet batches "MerkleRoot") (.str cr) = true) ∧
    (MerkleErr.eventHashesMismatch ∈ r.2.2 ↔
      ¬ pyEq (dictGetD batches "EventHashes" (.arr []))
          (.arr (storedTruthyHashes events)) = true) ∧
    r.1 + r.2.1 = 2 := by
  simp only [verify_merkle_tree] at hr
  rw [h] at hr
  simp only [Option.some.injEq] at hr
  subst hr
  refine ⟨?_, ?_, ?_⟩ <;>
    (by_cases c1 : pyEqOpt (dictGet batches "MerkleRoot") (.str cr) = true <;>
     by_cases c2 : pyEq (dictGetD batches "EventHashes" (.arr []))
        (.arr (storedTruthyHashes events)) = true <;>
     simp [c1, c2, mergeR])

/-- A single event whose stored hash is `aa`, for the Merkle claims. -/
def wMEv : Event := [("Header", .obj [("EventHash", .str "aa")])]

/-- A batch whose declared `EventHashes` (`[bb]`) and `MerkleRoot` (the
root of `[bb]` under `shaSum`) do *not* match the event above. -/
def wMBatches : List (String × JValue) :=
  [("MerkleRoot", .str "c2"), ("EventHashes", .arr [.str "bb"])]

/-- The result `verify_merkle_tree` computes at the concrete instance
below: both checks fail. -/
def wMResult : Nat × Nat × List MerkleErr :=
  (0, 2, [.rootMismatch "b1" (some (.str "c2")), .eventHashesMismatch])

/-- Witness for C1 as amended, at the concrete instance. -/
theorem merkle_two_independent_checks_witness :
    (MerkleErr.rootMismatch "b1" (dictGet wMBatches "MerkleRoot") ∈ wMResult.2.2 ↔
      ¬ pyEqOpt (dictGet wMBatches "MerkleRoot") (.str "b1") = true) ∧
    (MerkleErr.eventHashesMismatch ∈ wMResult.2.2 ↔
      ¬ pyEq (dictGetD wMBatches "EventHashes" (.arr []))
          (.arr (storedTruthyHashes [wMEv])) = true) ∧
    wMResult.1 + wMResult.2.1 = 2 :=
  merkle_two_independent_checks shaSum [wMEv] wMBatches "b1" wMResult rfl rfl

/-- Counterexample to C1 as stated: at this concrete input the code
result and the claimed procedure differ.  The code computes the root
from the event's stored hash `aa` (root `b1`), fails against the stored
root `c2`, and fails the list comparison (`[bb] ≠ [aa]`): `(0, 2)`.
The claimed procedure computes the root from the *declared* list `[bb]`
(root `c2`), which matches the stored root, and compares `[bb]` with
the *recomputed* digest list (`[be]`), failing only there: `(1, 1)`. -/
theorem merkle_claimC1_counterexample :
    (verify_merkle_tree shaSum [wMEv] wMBatches).map (fun r => (r.1, r.2.1)) =
      some (0, 2) ∧
    (verify_merkle_tree_claimC1 shaSum [wMEv] wMBatches).map (fun r => (r.1, r.2.1)) =
      some (1, 1) := by
  constructor <;> decide

end VCP
